import Mathlib

/-!
# Verification of the QuickHire job-board server

Shallow embedding of the Express + MongoDB server (`src/unnamed/part_000`).
Route handlers become pure functions over an explicit `Store`; the MongoDB
collections become association lists from identifier strings to documents.
JavaScript's loosely typed request fields are modelled with `Option String`
(a field that is either absent/`undefined` or a string) and `JVal` (an
arbitrary JSON-ish value, for the `type`/`featured`/`logo` job fields that
the handler stores with `||` defaulting).

External-library behavior is modelled where the handlers call into it:
* `ObjectId.isValid` (MongoDB driver): a string of length 12, or length 24
  consisting of hex digits.
* `$regex` with the `i` option, applied to the metacharacter-free patterns
  these handlers build: case-insensitive substring containment.
* `new URL(s)` (WHATWG): succeeds iff `s` begins with a scheme — an ASCII
  letter followed by letters/digits/`+`/`-`/`.` — and a colon; this is the
  fragment of URL parsing these claims exercise.
* `cursor.limit(n)` (MongoDB): `0` means no limit, `n > 0` returns at most
  `n` documents, `n < 0` returns a single batch of at most `|n|` documents
  (documented server semantics); a `NaN` limit (from `parseInt` on a
  non-numeric string) is falsy in JavaScript and is modelled as no limit.
* `cursor.sort({created_at: dir})`: a stable sort on the timestamp.
-/

namespace QtechServer

/-- A JSON-ish JavaScript value, for the loosely typed job fields that the
create handler stores via `x || default` without coercion. -/
inductive JVal where
  | str (s : String)
  | bool (b : Bool)
  | num (n : Int)
  | null
  | undef
deriving DecidableEq

/-- JavaScript truthiness on `JVal` (`NaN` is not modelled as a `num`). -/
def jsTruthy : JVal → Bool
  | .str s => s ≠ ""
  | .bool b => b
  | .num n => n ≠ 0
  | .null => false
  | .undef => false

/-- JavaScript `a || b`: `a` when truthy, else `b`. -/
def jsOr (a b : JVal) : JVal := if jsTruthy a then a else b

/-- JavaScript `String.prototype.trim` (for the ASCII whitespace used here). -/
def jsTrim (s : String) : String :=
  String.mk (((s.data.dropWhile Char.isWhitespace).reverse.dropWhile Char.isWhitespace).reverse)

/-- Lower-casing, as performed by `toLowerCase` and by the `i` regex flag. -/
def strLower (s : String) : String := String.mk (s.data.map Char.toLower)

/-- Case-insensitive substring containment: the semantics of
`{ $regex: pat, $options: 'i' }` for the metacharacter-free patterns the
handlers pass through from query parameters. -/
def iContains (hay pat : String) : Bool :=
  decide ((strLower pat).data <:+: (strLower hay).data)

/-- Hex digit, as accepted by the driver's 24-character ObjectId check. -/
def isHexChar (c : Char) : Bool :=
  ('0' ≤ c && c ≤ '9') || ('a' ≤ c && c ≤ 'f') || ('A' ≤ c && c ≤ 'F')

/-- `ObjectId.isValid` on a string: length 12 (raw bytes) or length 24 hex. -/
def isValidObjectId (s : String) : Bool :=
  s.data.length == 12 || (s.data.length == 24 && s.data.all isHexChar)

/-- The `n`-th system-generated ObjectId, as a 24-digit hex string. -/
def genId (n : Nat) : String :=
  String.mk ((List.range 24).map (fun i => Nat.digitChar (n / 16 ^ (23 - i) % 16)))

/-- A job document. Jobs created through `POST /api/jobs` carry a `category`
string and no `categories` array; seeded jobs carry a `categories` array and
no `category`. An absent string field is `none`, an absent array is `[]`
(both make the corresponding query condition fail, as in MongoDB). -/
structure Job where
  title : String
  company : String
  location : String
  category : Option String
  categories : List String
  description : String
  type : JVal
  featured : JVal
  logo : JVal
  created_at : Nat
deriving DecidableEq

/-- An application document, as inserted by `POST /api/applications`. -/
structure Application where
  job_id : String
  name : String
  email : String
  resume_link : String
  cover_note : String
  created_at : Nat
deriving DecidableEq

/-- The database: the `jobs` and `applications` collections as association
lists in insertion order, plus a counter from which fresh ObjectIds are
generated. -/
structure Store where
  jobs : List (String × Job)
  apps : List (String × Application)
  nextId : Nat
deriving DecidableEq

/-- One condition inside a `$or` group of the jobs filter. -/
inductive QCond where
  | titleRegex (pat : String)
  | companyRegex (pat : String)
  | descriptionRegex (pat : String)
  | categoryRegex (pat : String)
  | categoriesElem (pat : String)
deriving DecidableEq

/-- The filter object built by `GET /api/jobs`. `qor = []` stands for an
absent `$or` key and `qand = []` for an absent `$and` key. -/
structure JobsQuery where
  qor : List QCond
  qand : List (List QCond)
  location : Option String
  featured : Option Bool
deriving DecidableEq

/-- Truthiness of an optional string request field. -/
def optTruthy : Option String → Bool
  | none => false
  | some s => s ≠ ""

/-- The query construction of the `GET /api/jobs` handler, line by line:
keyword sets `$or`; location sets a regex on `location`; category either
becomes the `$or` (no keyword) or is conjoined with the keyword group via
`$and` (keyword present); `featured === 'true'` adds an exact match. -/
def buildJobsQuery (keyword location category featured : Option String) : JobsQuery :=
  let q : JobsQuery := ⟨[], [], none, none⟩
  let q := if optTruthy keyword then
      { q with qor := [QCond.titleRegex (keyword.getD ""),
                       QCond.companyRegex (keyword.getD ""),
                       QCond.descriptionRegex (keyword.getD "")] }
    else q
  let q := if optTruthy location then { q with location := location } else q
  let q := if optTruthy category then
      let catConds := [QCond.categoryRegex (category.getD ""),
                       QCond.categoriesElem (category.getD "")]
      if q.qor.length ≠ 0 then { q with qand := [q.qor, catConds], qor := [] }
      else { q with qor := catConds }
    else q
  if featured == some "true" then { q with featured := some true } else q

/-- Evaluation of a single filter condition on a job document. -/
def condHolds (j : Job) : QCond → Bool
  | .titleRegex pat => iContains j.title pat
  | .companyRegex pat => iContains j.company pat
  | .descriptionRegex pat => iContains j.description pat
  | .categoryRegex pat =>
      match j.category with
      | some s => iContains s pat
      | none => false
  | .categoriesElem pat => j.categories.any (fun s => iContains s pat)

/-- MongoDB evaluation of the filter: all top-level keys are conjoined;
`$or` requires some condition of the group, `$and` requires every group. -/
def queryMatches (q : JobsQuery) (j : Job) : Bool :=
  (q.qor.isEmpty || q.qor.any (condHolds j)) &&
  q.qand.all (fun grp => grp.any (condHolds j)) &&
  (match q.location with
   | some pat => iContains j.location pat
   | none => true) &&
  (match q.featured with
   | some b => j.featured == JVal.bool b
   | none => true)

/-- Value of a list of decimal digit characters. -/
def digitsToNat (ds : List Char) : Nat :=
  ds.foldl (fun acc c => acc * 10 + (c.toNat - '0'.toNat)) 0

/-- JavaScript `parseInt` in base 10: skip leading whitespace, optional
sign, then a maximal run of digits; `none` models `NaN` (no digits). -/
def jsParseInt (s : String) : Option Int :=
  let cs := s.data.dropWhile Char.isWhitespace
  let sgn : Int := match cs with
    | '-' :: _ => -1
    | _ => 1
  let cs2 := match cs with
    | '-' :: t => t
    | '+' :: t => t
    | t => t
  let ds := cs2.takeWhile Char.isDigit
  if ds.isEmpty then none else some (sgn * (digitsToNat ds : Int))

/-- `const limitNum = limit ? parseInt(limit) : 0`. -/
def limitNum (lim : Option String) : Option Int :=
  if optTruthy lim then jsParseInt (lim.getD "") else some 0

/-- `const sortOption = sort === 'newest' ? { created_at: -1 } : { created_at: -1 }`
— the created_at direction, `-1` in both branches. -/
def sortOption (sort : Option String) : Int :=
  if sort == some "newest" then -1 else -1

/-- Jobs ordered before other jobs with smaller timestamps (descending). -/
def byCreatedDesc (a b : Job) : Prop := b.created_at ≤ a.created_at

/-- Jobs ordered before other jobs with larger timestamps (ascending). -/
def byCreatedAsc (a b : Job) : Prop := a.created_at ≤ b.created_at

instance : DecidableRel byCreatedDesc := fun a b => Nat.decLe b.created_at a.created_at

instance : DecidableRel byCreatedAsc := fun a b => Nat.decLe a.created_at b.created_at

instance : IsTotal Job byCreatedDesc := ⟨fun a b => Nat.le_total b.created_at a.created_at⟩

instance : IsTrans Job byCreatedDesc := ⟨fun _ _ _ h1 h2 => le_trans h2 h1⟩

/-- `cursor.sort({created_at: dir})`: a stable sort on the timestamp in the
requested direction. -/
def sortByCreatedAt (dir : Int) (l : List Job) : List Job :=
  if dir = -1 then l.insertionSort byCreatedDesc else l.insertionSort byCreatedAsc

/-- `cursor.limit`: `0` (and the driver-dropped falsy `NaN`) means no
limit; a nonzero `n` caps the result at `|n|` documents (negative values
are MongoDB's single-batch limit). -/
def applyLimit (n : Option Int) (l : List Job) : List Job :=
  match n with
  | none => l
  | some m => if m = 0 then l else l.take m.natAbs

/-- The matching jobs in result order, before the limit is applied. -/
def matchedSorted (keyword location category featured sort : Option String)
    (s : Store) : List Job :=
  sortByCreatedAt (sortOption sort)
    ((s.jobs.map Prod.snd).filter (queryMatches (buildJobsQuery keyword location category featured)))

/-- The `GET /api/jobs` handler: filter, sort, limit. -/
def listJobs (keyword location category featured lim sort : Option String)
    (s : Store) : List Job :=
  applyLimit (limitNum lim) (matchedSorted keyword location category featured sort s)

/-- `!field?.trim()`: the field is absent or trims to the empty string. -/
def optMissing : Option String → Bool
  | none => true
  | some s => jsTrim s == ""

/-- The create handler's missing-field accumulator, in source order. -/
def missingFields (title company location category description : Option String) : List String :=
  (if optMissing title then ["title"] else []) ++
  (if optMissing company then ["company"] else []) ++
  (if optMissing location then ["location"] else []) ++
  (if optMissing category then ["category"] else []) ++
  (if optMissing description then ["description"] else [])

/-- `findOne({_id})`: the first document with the given identifier. -/
def findJob (id : String) (jobs : List (String × Job)) : Option Job :=
  (jobs.find? (fun p => p.1 == id)).map Prod.snd

/-- Outcome of `POST /api/jobs`. -/
inductive CreateResult where
  | badRequest (error : String)
  | created (jobId : String) (job : Job)
deriving DecidableEq

/-- The `POST /api/jobs` handler: collect missing required fields, reject
with 400 naming them all, otherwise insert the trimmed document with
`||`-defaulted `type`/`featured`/`logo` and the current timestamp. After
the validation passes each required field is `some`, so `getD ""` reads the
same string the JavaScript reads. -/
def createJob (title company location category description : Option String)
    (ty featured logo : JVal) (now : Nat) (s : Store) : CreateResult × Store :=
  let missing := missingFields title company location category description
  if !missing.isEmpty then
    (.badRequest ("Missing required fields: " ++ String.intercalate ", " missing), s)
  else
    let newJob : Job :=
      { title := jsTrim (title.getD "")
        company := jsTrim (company.getD "")
        location := jsTrim (location.getD "")
        category := some (jsTrim (category.getD ""))
        categories := []
        description := jsTrim (description.getD "")
        type := jsOr ty (.str "Full Time")
        featured := jsOr featured (.bool false)
        logo := jsOr logo .null
        created_at := now }
    let id := genId s.nextId
    (.created id newJob, { s with jobs := s.jobs ++ [(id, newJob)], nextId := s.nextId + 1 })

/-- Outcome of `GET /api/jobs/:id`. -/
inductive GetResult where
  | badRequest (error : String)
  | notFound (error : String)
  | ok (job : Job)
deriving DecidableEq

/-- The `GET /api/jobs/:id` handler. -/
def getJob (id : String) (s : Store) : GetResult :=
  if !isValidObjectId id then .badRequest "Invalid job ID"
  else
    match findJob id s.jobs with
    | none => .notFound "Job not found"
    | some j => .ok j

/-- `deleteOne({_id})`: deleted count and the remaining collection. -/
def deleteOneById (id : String) : List (String × Job) → Nat × List (String × Job)
  | [] => (0, [])
  | p :: rest =>
    if p.1 == id then (1, rest)
    else
      let r := deleteOneById id rest
      (r.1, p :: r.2)

/-- Outcome of `DELETE /api/jobs/:id`. -/
inductive DeleteResult where
  | badRequest (error : String)
  | notFound (error : String)
  | ok (message : String)
deriving DecidableEq

/-- The `DELETE /api/jobs/:id` handler. -/
def deleteJob (id : String) (s : Store) : DeleteResult × Store :=
  if !isValidObjectId id then (.badRequest "Invalid job ID", s)
  else
    let r := deleteOneById id s.jobs
    if r.1 == 0 then (.notFound "Job not found", { s with jobs := r.2 })
    else (.ok "Job deleted successfully", { s with jobs := r.2 })

/-- The body of the email check, after the string is split at its first
`@`: `rest` is empty when the string has no `@`. -/
def emailOkAux (before rest : List Char) : Bool :=
  match rest with
  | [] => false
  | _ :: after =>
    !before.isEmpty && before.all (fun c => !c.isWhitespace) &&
    !after.isEmpty && after.all (fun c => !c.isWhitespace && c ≠ '@') &&
    (List.range after.length).any
      (fun j => decide (1 ≤ j) && decide (j + 1 < after.length) && (after.getD j '@' == '.'))

/-- The character is not the `@` sign. -/
def notAt (c : Char) : Bool := c ≠ '@'

/-- `/^[^\s@]+@[^\s@]+\.[^\s@]+$/.test(email)`: a nonempty run of
non-space non-`@` characters, one `@`, then a nonempty run containing a
`.` that is neither directly after the `@` nor last. -/
def emailOk (s : String) : Bool :=
  emailOkAux (s.data.takeWhile notAt) (s.data.dropWhile notAt)

/-- Characters allowed after the first in a URL scheme. -/
def isSchemeChar (c : Char) : Bool := c.isAlphanum || c == '+' || c == '-' || c == '.'

/-- `new URL(resume_link)` succeeds: the string starts with a scheme
(letter, then letters/digits/`+`/`-`/`.`) followed by a colon — the
fragment of WHATWG URL parsing these handlers exercise. -/
def isValidURL (s : String) : Bool :=
  match s.data.takeWhile (fun c => c ≠ ':'), s.data.dropWhile (fun c => c ≠ ':') with
  | c :: cs, _ :: _ => c.isAlpha && cs.all isSchemeChar
  | _, _ => false

/-- Outcome of `POST /api/applications`. -/
inductive SubmitResult where
  | badRequest (error : String)
  | notFound (error : String)
  | created (applicationId : String)
deriving DecidableEq

/-- The `POST /api/applications` handler, check by check: presence (note
`job_id` is tested for truthiness without trimming, while the other four
are trimmed), then the email pattern on the *raw* email string, then the
resume URL, then ObjectId syntax, then job existence, then the insert. -/
def submitApplication (job_id name email resume_link cover_note : Option String)
    (now : Nat) (s : Store) : SubmitResult × Store :=
  if !optTruthy job_id || optMissing name || optMissing email ||
      optMissing resume_link || optMissing cover_note then
    (.badRequest "All fields are required", s)
  else if !emailOk (email.getD "") then
    (.badRequest "Invalid email format", s)
  else if !isValidURL (resume_link.getD "") then
    (.badRequest "Resume link must be a valid URL", s)
  else if !isValidObjectId (job_id.getD "") then
    (.badRequest "Invalid job ID", s)
  else
    match findJob (job_id.getD "") s.jobs with
    | none => (.notFound "Job not found", s)
    | some _ =>
      let app : Application :=
        { job_id := job_id.getD ""
          name := jsTrim (name.getD "")
          email := strLower (jsTrim (email.getD ""))
          resume_link := jsTrim (resume_link.getD "")
          cover_note := jsTrim (cover_note.getD "")
          created_at := now }
      let id := genId s.nextId
      (.created id, { s with apps := s.apps ++ [(id, app)], nextId := s.nextId + 1 })

/-- The keyword group of the jobs filter: the keyword occurs
case-insensitively in the title, the company, or the description. -/
def keywordGroup (k : String) (j : Job) : Bool :=
  iContains j.title k || iContains j.company k || iContains j.description k

/-- The category group of the jobs filter: the category occurs
case-insensitively in the `category` field or in some element of the
`categories` array. -/
def categoryGroup (c : String) (j : Job) : Bool :=
  (match j.category with
   | some s => iContains s c
   | none => false) ||
  j.categories.any (fun s => iContains s c)

/-- The location condition contributed to the filter by the request. -/
def locationCond (loc : Option String) (j : Job) : Bool :=
  if optTruthy loc then iContains j.location (loc.getD "") else true

/-- The featured condition contributed to the filter by the request. -/
def featuredCond (feat : Option String) (j : Job) : Bool :=
  if feat == some "true" then j.featured == JVal.bool true else true

/-- A job document shaped like the seeded "Brand Designer" at Dropbox:
a `categories` array and no `category` string. -/
def sampleJob : Job :=
  { title := "Brand Designer"
    company := "Dropbox"
    location := "San Francisco, US"
    category := none
    categories := ["Design", "Business"]
    description := "Dropbox is looking for a Brand Designer."
    type := .str "Full Time"
    featured := .bool true
    logo := .str "https://logo.clearbit.com/dropbox.com"
    created_at := 100 }

/-- The store before any insert. -/
def emptyStore : Store := ⟨[], [], 0⟩

/-- A store holding three jobs with distinct identifiers and timestamps. -/
def threeJobStore : Store :=
  ⟨[(genId 0, sampleJob),
    (genId 1, { sampleJob with created_at := 50 }),
    (genId 2, { sampleJob with created_at := 70 })], [], 3⟩

/-- Every digit of a generated identifier is a hex digit. -/
theorem digitChar_hex (k : Nat) (h : k < 16) : isHexChar (Nat.digitChar k) = true := by
  interval_cases k <;> decide

/-- System-generated identifiers pass the driver's ObjectId syntax check. -/
theorem genId_valid (n : Nat) : isValidObjectId (genId n) = true := by
  have hd : (genId n).data
      = (List.range 24).map (fun i => Nat.digitChar (n / 16 ^ (23 - i) % 16)) := rfl
  rw [isValidObjectId, hd, Bool.or_eq_true, Bool.and_eq_true]
  refine Or.inr ⟨by simp, ?_⟩
  rw [List.all_eq_true]
  intro c hc
  rw [List.mem_map] at hc
  obtain ⟨i, _, rfl⟩ := hc
  exact digitChar_hex _ (Nat.mod_lt _ (by norm_num))

/-- A string passing the ObjectId syntax check is nonempty. -/
theorem objectId_valid_ne_empty (s : String) (h : isValidObjectId s = true) : s ≠ "" := by
  intro he
  subst he
  simp [isValidObjectId] at h

/-- C1, as the spec states it, is false: a syntactically invalid but
nonempty `job_id` (here `"abc"`) with otherwise valid fields is answered
with the 400 body `Invalid job ID`, not with a 404. -/
theorem submit_invalid_id_not_404 :
    isValidObjectId "abc" = false ∧ ("abc" : String) ≠ "" ∧
    emailOk "a@b.com" = true ∧ isValidURL "https://x.example/cv" = true ∧
    (submitApplication (some "abc") (some "Alice") (some "a@b.com")
        (some "https://x.example/cv") (some "hello") 0 emptyStore).1
      = SubmitResult.badRequest "Invalid job ID" ∧
    (submitApplication (some "abc") (some "Alice") (some "a@b.com")
        (some "https://x.example/cv") (some "hello") 0 emptyStore).1
      ≠ SubmitResult.notFound "Job not found" := by decide

/-- C1 (amended): a nonempty `job_id` failing the ObjectId syntax check,
with the other fields passing validation, is rejected with HTTP 400 and
the body `Invalid job ID`, leaving the store unchanged. -/
theorem submit_invalid_id_400 (jid name email resume cover : String) (now : Nat) (s : Store)
    (hjid : jid ≠ "") (hvalid : isValidObjectId jid = false)
    (hn : jsTrim name ≠ "") (het : jsTrim email ≠ "") (he : emailOk email = true)
    (hrt : jsTrim resume ≠ "") (hr : isValidURL resume = true)
    (hcv : jsTrim cover ≠ "") :
    submitApplication (some jid) (some name) (some email) (some resume) (some cover) now s
      = (.badRequest "Invalid job ID", s) := by
  simp [submitApplication, optTruthy, optMissing, hjid, hn, het, hrt, hcv, he, hr, hvalid]

/-- C1 witness: the amended statement applied at a concrete request. -/
theorem submit_invalid_id_400_witness :
    submitApplication (some "xyz") (some "Bob") (some "b@c.org")
        (some "https://r.example/a") (some "note") 7 emptyStore
      = (.badRequest "Invalid job ID", emptyStore) :=
  submit_invalid_id_400 "xyz" "Bob" "b@c.org" "https://r.example/a" "note" 7 emptyStore
    (by decide) (by decide) (by decide) (by decide) (by decide) (by decide) (by decide)
    (by decide)

/-- C5: a syntactically valid `job_id` that resolves to no stored job,
with the other fields passing validation, is rejected with HTTP 404 and
the body `Job not found`, leaving the store unchanged. -/
theorem submit_nonexistent_job_404 (jid name email resume cover : String) (now : Nat) (s : Store)
    (hvalid : isValidObjectId jid = true) (habsent : findJob jid s.jobs = none)
    (hn : jsTrim name ≠ "") (het : jsTrim email ≠ "") (he : emailOk email = true)
    (hrt : jsTrim resume ≠ "") (hr : isValidURL resume = true)
    (hcv : jsTrim cover ≠ "") :
    submitApplication (some jid) (some name) (some email) (some resume) (some cover) now s
      = (.notFound "Job not found", s) := by
  have hjid : jid ≠ "" := objectId_valid_ne_empty jid hvalid
  simp [submitApplication, optTruthy, optMissing, hjid, hn, het, hrt, hcv, he, hr, hvalid,
    habsent]

/-- C5 witness: the theorem applied with a valid 12-byte identifier
against the empty store. -/
theorem submit_nonexistent_job_404_witness :
    submitApplication (some "0123456789ab") (some "Alice") (some "a@b.com")
        (some "https://x.example/cv") (some "hello") 0 emptyStore
      = (.notFound "Job not found", emptyStore) :=
  submit_nonexistent_job_404 "0123456789ab" "Alice" "a@b.com" "https://x.example/cv"
    "hello" 0 emptyStore (by decide) (by decide) (by decide) (by decide) (by decide)
    (by decide) (by decide) (by decide)

/-- The email check fails when its local part contains a whitespace
character (the `[^\s@]+` class rejects it). -/
theorem emailOkAux_before_false (before rest : List Char)
    (h : before.all (fun c => !c.isWhitespace) = false) :
    emailOkAux before rest = false := by
  cases rest <;> simp [emailOkAux, h]

/-- The email check fails when the part after the `@` contains a
whitespace character or a second `@`. -/
theorem emailOkAux_after_false (before : List Char) (a : Char) (after : List Char)
    (h : after.all (fun c => !c.isWhitespace && c ≠ '@') = false) :
    emailOkAux before (a :: after) = false := by
  simp only [emailOkAux]
  rw [h]
  simp

/-- A string beginning with whitespace fails the email pattern (the
pattern is anchored with `^[^\s@]+`). -/
theorem emailOk_head_ws (s : String) (c : Char) (t : List Char)
    (hd : s.data = c :: t) (hw : c.isWhitespace = true) : emailOk s = false := by
  have hca : notAt c = true := by
    simp only [notAt, decide_eq_true_eq]
    intro h
    subst h
    exact absurd hw (by decide)
  rw [emailOk, hd, List.takeWhile_cons, List.dropWhile_cons, hca]
  simp only [if_true]
  exact emailOkAux_before_false _ _ (by simp [List.all_cons, hw])

/-- A string ending with whitespace fails the email pattern (the pattern
is anchored with `[^\s@]+$`). -/
theorem emailOk_last_ws (s : String) (c : Char)
    (hl : s.data.getLast? = some c) (hw : c.isWhitespace = true) : emailOk s = false := by
  rw [emailOk]
  rcases hdw : s.data.dropWhile notAt with _ | ⟨a, after⟩
  · rfl
  · rcases after with _ | ⟨b, rest⟩
    · simp [emailOkAux]
    · apply emailOkAux_after_false
      have hsplit : s.data = s.data.takeWhile notAt ++ a :: b :: rest := by
        conv_lhs => rw [← List.takeWhile_append_dropWhile notAt s.data]
        rw [hdw]
      have hlast : (b :: rest).getLast? = some c := by
        rw [hsplit, List.getLast?_append_of_ne_nil _ (by simp),
          List.getLast?_cons_cons] at hl
        exact hl
      have hmem : c ∈ b :: rest := by
        obtain ⟨hne, rfl⟩ := List.mem_getLast?_eq_getLast (Option.mem_def.mpr hlast)
        exact List.getLast_mem hne
      rw [List.all_eq_false]
      exact ⟨c, hmem, by simp [hw]⟩

/-- C9: an application whose email has leading or trailing whitespace is
rejected with HTTP 400 `Invalid email format`, even though the presence
check accepted the trimmed email: the pattern is tested on the raw string. -/
theorem submit_untrimmed_email_400 (jid name email resume cover : String) (now : Nat)
    (s : Store) (hjid : jid ≠ "") (hn : jsTrim name ≠ "") (het : jsTrim email ≠ "")
    (hrt : jsTrim resume ≠ "") (hcv : jsTrim cover ≠ "")
    (hws : (∃ c ∈ email.data.head?, c.isWhitespace) ∨
           (∃ c ∈ email.data.getLast?, c.isWhitespace)) :
    submitApplication (some jid) (some name) (some email) (some resume) (some cover) now s
      = (.badRequest "Invalid email format", s) := by
  have hfalse : emailOk email = false := by
    rcases hws with ⟨c, hc, hw⟩ | ⟨c, hc, hw⟩
    · rcases hd : email.data with _ | ⟨c', t⟩
      · rw [hd] at hc
        simp at hc
      · rw [hd] at hc
        simp only [List.head?_cons, Option.mem_def, Option.some.injEq] at hc
        subst hc
        exact emailOk_head_ws email c' t hd hw
    · exact emailOk_last_ws email c (Option.mem_def.mp hc) hw
  simp [submitApplication, optTruthy, optMissing, hjid, hn, het, hrt, hcv, hfalse]

/-- C9 witness: the theorem applied to the email `" a@b.c"`, which trims
to the well-formed `"a@b.c"` but is rejected raw. -/
theorem submit_untrimmed_email_400_witness :
    emailOk "a@b.c" = true ∧
    submitApplication (some "0123456789ab") (some "Alice") (some " a@b.c")
        (some "https://x.example/cv") (some "hello") 0 emptyStore
      = (.badRequest "Invalid email format", emptyStore) :=
  ⟨by decide,
   submit_untrimmed_email_400 "0123456789ab" "Alice" " a@b.c" "https://x.example/cv"
     "hello" 0 emptyStore (by decide) (by decide) (by decide) (by decide) (by decide)
     (Or.inl ⟨' ', by decide, by decide⟩)⟩

/-- C3: when at least one required field is absent or trims to empty, job
creation answers 400 with a message listing the missing fields, the store
is unchanged, and a field name appears in that list exactly when the
corresponding field is absent or empty after trimming — every missing
field is named, not just the first. -/
theorem create_missing_fields_400 (title company location category description : Option String)
    (ty featured logo : JVal) (now : Nat) (s : Store)
    (h : missingFields title company location category description ≠ []) :
    createJob title company location category description ty featured logo now s
        = (.badRequest ("Missing required fields: " ++ String.intercalate ", "
            (missingFields title company location category description)), s) ∧
      (optMissing title = true ↔
        "title" ∈ missingFields title company location category description) ∧
      (optMissing company = true ↔
        "company" ∈ missingFields title company location category description) ∧
      (optMissing location = true ↔
        "location" ∈ missingFields title company location category description) ∧
      (optMissing category = true ↔
        "category" ∈ missingFields title company location category description) ∧
      (optMissing description = true ↔
        "description" ∈ missingFields title company location category description) := by
  refine ⟨?_, ?_⟩
  · have hne : (missingFields title company location category description).isEmpty = false := by
      simp [List.isEmpty_iff, h]
    simp [createJob, hne]
  · unfold missingFields
    split_ifs <;> simp_all

/-- C3 witness: a request missing `company` and `description` and with a
blank `location` is rejected naming all three. -/
theorem create_missing_fields_400_witness :
    (createJob (some "T") none (some " ") (some "C") none .undef .undef .undef 5
        emptyStore).1
      = .badRequest "Missing required fields: company, location, description" := by
  have h := create_missing_fields_400 (some "T") none (some " ") (some "C") none
    .undef .undef .undef 5 emptyStore (by decide)
  rw [h.1]
  decide

/-- C4: when every required field trims to a nonempty string and the
generated identifier is fresh, creation succeeds returning that identifier
and the created document, the document is appended to the collection, and
fetching the returned identifier yields the created document. -/
theorem create_then_get (title company location category description : String)
    (ty featured logo : JVal) (now : Nat) (s : Store)
    (ht : jsTrim title ≠ "") (hco : jsTrim company ≠ "") (hlo : jsTrim location ≠ "")
    (hca : jsTrim category ≠ "") (hde : jsTrim description ≠ "")
    (hfresh : findJob (genId s.nextId) s.jobs = none) :
    ∃ j s2,
      createJob (some title) (some company) (some location) (some category)
          (some description) ty featured logo now s
        = (.created (genId s.nextId) j, s2) ∧
      s2.jobs = s.jobs ++ [(genId s.nextId, j)] ∧
      getJob (genId s.nextId) s2 = .ok j := by
  have hm : missingFields (some title) (some company) (some location) (some category)
      (some description) = [] := by
    simp [missingFields, optMissing, ht, hco, hlo, hca, hde]
  simp only [createJob, hm, List.isEmpty_nil, Bool.not_true, Bool.false_eq_true, if_false,
    ite_false]
  refine ⟨_, _, rfl, rfl, ?_⟩
  have hv := genId_valid s.nextId
  simp only [getJob, hv, Bool.not_true, Bool.false_eq_true, if_false, ite_false]
  unfold findJob at hfresh ⊢
  rw [List.find?_append, Option.map_eq_none'.mp hfresh, Option.none_or]
  simp [List.find?_cons]

/-- C4 witness: the theorem applied at a concrete request on the empty
store. -/
theorem create_then_get_witness :
    ∃ j s2,
      createJob (some "Dev") (some "Acme") (some "Lyon") (some "Tech")
          (some "Build things") (.str "Part Time") (.bool true) .null 9 emptyStore
        = (.created (genId 0) j, s2) ∧
      s2.jobs = emptyStore.jobs ++ [(genId 0, j)] ∧
      getJob (genId 0) s2 = .ok j :=
  create_then_get "Dev" "Acme" "Lyon" "Tech" "Build things" (.str "Part Time")
    (.bool true) .null 9 emptyStore (by decide) (by decide) (by decide) (by decide)
    (by decide) (by decide)

/-- C10: for a validated creation request the stored document's `featured`
field is the request's value unchanged whenever that value is truthy (no
boolean coercion) and the boolean `false` otherwise, and its `type` field
is the request's value when truthy and the string `Full Time` otherwise. -/
theorem create_featured_type_raw (title company location category description : String)
    (ty featured logo : JVal) (now : Nat) (s : Store)
    (ht : jsTrim title ≠ "") (hco : jsTrim company ≠ "") (hlo : jsTrim location ≠ "")
    (hca : jsTrim category ≠ "") (hde : jsTrim description ≠ "") :
    ∃ id j s2,
      createJob (some title) (some company) (some location) (some category)
          (some description) ty featured logo now s
        = (.created id j, s2) ∧
      s2.jobs = s.jobs ++ [(id, j)] ∧
      j.featured = (if jsTruthy featured then featured else JVal.bool false) ∧
      j.type = (if jsTruthy ty then ty else JVal.str "Full Time") := by
  have hm : missingFields (some title) (some company) (some location) (some category)
      (some description) = [] := by
    simp [missingFields, optMissing, ht, hco, hlo, hca, hde]
  simp only [createJob, hm, List.isEmpty_nil, Bool.not_true, Bool.false_eq_true, if_false,
    ite_false]
  exact ⟨_, _, _, rfl, rfl, by simp [jsOr], by simp [jsOr]⟩

/-- C10 witness: a truthy non-boolean `featured` (the string `"yes"`) is
stored as that string, and a falsy `type` defaults to `Full Time`. -/
theorem create_featured_type_raw_witness :
    ∃ id j s2,
      createJob (some "Dev") (some "Acme") (some "Lyon") (some "Tech")
          (some "Build things") .null (.str "yes") .null 9 emptyStore
        = (.created id j, s2) ∧
      s2.jobs = emptyStore.jobs ++ [(id, j)] ∧
      j.featured = (if jsTruthy (.str "yes") then JVal.str "yes" else JVal.bool false) ∧
      j.type = (if jsTruthy .null then JVal.null else JVal.str "Full Time") :=
  create_featured_type_raw "Dev" "Acme" "Lyon" "Tech" "Build things" .null (.str "yes")
    .null 9 emptyStore (by decide) (by decide) (by decide) (by decide) (by decide)

/-- `deleteOne` on a collection not containing the identifier deletes
nothing and leaves the collection unchanged. -/
theorem deleteOneById_not_mem (id : String) (l : List (String × Job))
    (h : id ∉ l.map Prod.fst) : deleteOneById id l = (0, l) := by
  induction l with
  | nil => rfl
  | cons p rest ih =>
    simp only [List.map_cons, List.mem_cons, not_or] at h
    have hb : (p.1 == id) = false := by
      simp only [beq_eq_false_iff_ne, ne_eq]
      exact fun he => h.1 he.symm
    simp [deleteOneById, hb, ih h.2]

/-- `deleteOne` on a duplicate-free collection containing the identifier
reports one deletion, shrinks the collection by one document, and removes
the identifier. -/
theorem deleteOneById_mem (id : String) (l : List (String × Job))
    (hmem : id ∈ l.map Prod.fst) (hnd : (l.map Prod.fst).Nodup) :
    (deleteOneById id l).1 = 1 ∧
    (deleteOneById id l).2.length + 1 = l.length ∧
    id ∉ (deleteOneById id l).2.map Prod.fst := by
  induction l with
  | nil => simp at hmem
  | cons p rest ih =>
    rw [List.map_cons, List.nodup_cons] at hnd
    by_cases hp : p.1 = id
    · have hb : (p.1 == id) = true := by simp [hp]
      refine ⟨by simp [deleteOneById, hb], by simp [deleteOneById, hb], ?_⟩
      simp only [deleteOneById, hb, if_true]
      exact fun hmem2 => hnd.1 (hp ▸ hmem2)
    · have hb : (p.1 == id) = false := by simp [hp]
      have hmem' : id ∈ rest.map Prod.fst := by
        rw [List.map_cons] at hmem
        rcases List.mem_cons.mp hmem with h | h
        · exact absurd h.symm hp
        · exact h
      obtain ⟨ih1, ih2, ih3⟩ := ih hmem' hnd.2
      have hstep : deleteOneById id (p :: rest)
          = ((deleteOneById id rest).1, p :: (deleteOneById id rest).2) := by
        simp [deleteOneById, hb]
      rw [hstep]
      refine ⟨ih1, ?_, ?_⟩
      · simp only [List.length_cons]
        omega
      · simp only [List.map_cons, List.mem_cons, not_or]
        exact ⟨fun he => hp he.symm, ih3⟩

/-- C6: deleting a stored job by its identifier answers 200 and removes
exactly that document; immediately repeating the delete answers 404 and
leaves the collection untouched. -/
theorem delete_twice (id : String) (s : Store)
    (hv : isValidObjectId id = true) (hmem : id ∈ s.jobs.map Prod.fst)
    (hnd : (s.jobs.map Prod.fst).Nodup) :
    ∃ s2,
      deleteJob id s = (.ok "Job deleted successfully", s2) ∧
      s2.jobs.length + 1 = s.jobs.length ∧
      id ∉ s2.jobs.map Prod.fst ∧
      deleteJob id s2 = (.notFound "Job not found", s2) := by
  obtain ⟨h1, h2, h3⟩ := deleteOneById_mem id s.jobs hmem hnd
  refine ⟨{ s with jobs := (deleteOneById id s.jobs).2 }, ?_, h2, h3, ?_⟩
  · simp [deleteJob, hv, h1]
  · have hnone := deleteOneById_not_mem id _ h3
    simp [deleteJob, hv, hnone]

/-- C6 witness: the theorem applied to a store holding one job. -/
theorem delete_twice_witness :
    ∃ s2,
      deleteJob (genId 0) ⟨[(genId 0, sampleJob)], [], 1⟩
        = (.ok "Job deleted successfully", s2) ∧
      s2.jobs.length + 1 = 1 ∧
      genId 0 ∉ s2.jobs.map Prod.fst ∧
      deleteJob (genId 0) s2 = (.notFound "Job not found", s2) :=
  delete_twice (genId 0) ⟨[(genId 0, sampleJob)], [], 1⟩ (by decide) (by decide)
    (by decide)

/-- Both branches of the handler's sort ternary yield direction `-1`. -/
theorem sortOption_eq (sort : Option String) : sortOption sort = -1 := by
  unfold sortOption
  split <;> rfl

/-- C7: for every value of the `sort` parameter the listed jobs are in
descending creation-timestamp order, and the result does not depend on the
`sort` parameter at all. -/
theorem listJobs_sorted_desc (kw loc cat feat lim sortA sortB : Option String) (s : Store) :
    (listJobs kw loc cat feat lim sortA s).Pairwise byCreatedDesc ∧
    listJobs kw loc cat feat lim sortA s = listJobs kw loc cat feat lim sortB s := by
  constructor
  · have hs : (matchedSorted kw loc cat feat sortA s).Pairwise byCreatedDesc := by
      unfold matchedSorted sortByCreatedAt
      rw [sortOption_eq]
      simp only [if_pos]
      exact List.sorted_insertionSort byCreatedDesc _
    rw [listJobs]
    cases h : limitNum lim with
    | none => exact hs
    | some m =>
      by_cases hm : m = 0
      · simpa [applyLimit, hm] using hs
      · simp only [applyLimit, hm, if_false, ite_false]
        exact List.Pairwise.sublist (List.take_sublist _ _) hs
  · rw [listJobs, listJobs, matchedSorted, matchedSorted, sortOption_eq, sortOption_eq]

/-- C2: with both a nonempty keyword and a nonempty category supplied, the
built filter matches a job exactly when the keyword group holds AND the
category group holds (conjoined with whatever the location and featured
parameters contribute); neither group is discarded. -/
theorem keyword_and_category (k c : String) (loc feat : Option String) (j : Job)
    (hk : k ≠ "") (hc : c ≠ "") :
    queryMatches (buildJobsQuery (some k) loc (some c) feat) j
      = (keywordGroup k j && categoryGroup c j && locationCond loc j && featuredCond feat j) := by
  have hkt : optTruthy (some k) = true := by simp [optTruthy, hk]
  have hct : optTruthy (some c) = true := by simp [optTruthy, hc]
  rcases loc with _ | p
  · by_cases hfeat : (feat == some "true") = true <;>
      simp [buildJobsQuery, hkt, hct, hk, hc, hfeat, queryMatches, condHolds, keywordGroup,
        categoryGroup, locationCond, featuredCond, optTruthy, Bool.or_assoc, Bool.and_assoc]
  · by_cases hp : p = "" <;> by_cases hfeat : (feat == some "true") = true <;>
      simp [buildJobsQuery, hkt, hct, hk, hc, hp, hfeat, queryMatches, condHolds, keywordGroup,
        categoryGroup, locationCond, featuredCond, optTruthy, Bool.or_assoc, Bool.and_assoc]

/-- C2 witness: the theorem applied to the sample job, a keyword matching
its description and a category matching its categories array. -/
theorem keyword_and_category_witness :
    queryMatches (buildJobsQuery (some "des") none (some "Design") none) sampleJob
      = (keywordGroup "des" sampleJob && categoryGroup "Design" sampleJob &&
         locationCond none sampleJob && featuredCond none sampleJob) :=
  keyword_and_category "des" "Design" none none sampleJob (by decide) (by decide)

/-- C8, as the spec states it, is false: the limit `"-2"` is not a
positive integer, yet only 2 of the 3 matching jobs are returned. -/
theorem limit_negative_truncates :
    jsParseInt "-2" = some (-2) ∧ ¬(0 < (-2 : Int)) ∧
    (listJobs none none none none (some "-2") none threeJobStore).length = 2 ∧
    ((threeJobStore.jobs.map Prod.snd).filter
        (queryMatches (buildJobsQuery none none none none))).length = 3 := by decide

/-- C8 (amended): a positive parsed limit `n` returns the first `n` jobs
in sort order (hence at most `n`); an absent, empty, zero, or unparsable
limit leaves the result untruncated; but a negative parsed limit `n`
truncates to at most `|n|` jobs (MongoDB's single-batch semantics). -/
theorem listJobs_limit (kw loc cat feat lim sort : Option String) (s : Store) :
    (limitNum lim = none →
      listJobs kw loc cat feat lim sort s = matchedSorted kw loc cat feat sort s) ∧
    (∀ m : Int, limitNum lim = some m →
      (0 < m →
        listJobs kw loc cat feat lim sort s
          = (matchedSorted kw loc cat feat sort s).take m.toNat ∧
        (listJobs kw loc cat feat lim sort s).length ≤ m.toNat) ∧
      (m = 0 →
        listJobs kw loc cat feat lim sort s = matchedSorted kw loc cat feat sort s ∧
        (listJobs kw loc cat feat lim sort s).length
          = ((s.jobs.map Prod.snd).filter
              (queryMatches (buildJobsQuery kw loc cat feat))).length) ∧
      (m < 0 →
        (listJobs kw loc cat feat lim sort s).length ≤ m.natAbs)) := by
  have hlen : (matchedSorted kw loc cat feat sort s).length
      = ((s.jobs.map Prod.snd).filter
          (queryMatches (buildJobsQuery kw loc cat feat))).length := by
    rw [matchedSorted, sortByCreatedAt, sortOption_eq]
    simp only [if_pos]
    exact (List.perm_insertionSort byCreatedDesc _).length_eq
  constructor
  · intro h
    simp [listJobs, h, applyLimit]
  · intro m h
    refine ⟨?_, ?_, ?_⟩
    · intro hm
      have hm0 : m ≠ 0 := by omega
      have hna : m.natAbs = m.toNat := by omega
      constructor
      · simp [listJobs, h, applyLimit, hm0, hna]
      · simp [listJobs, h, applyLimit, hm0, hna, List.length_take]
    · intro hm
      subst hm
      constructor
      · simp [listJobs, h, applyLimit]
      · simp [listJobs, h, applyLimit, hlen]
    · intro hm
      have hm0 : m ≠ 0 := by omega
      simp [listJobs, h, applyLimit, hm0, List.length_take]

/-- C8 witness: the amended statement applied at the limit `"-2"` on the
three-job store. -/
theorem listJobs_limit_witness :
    (listJobs none none none none (some "-2") none threeJobStore).length
      ≤ ((-2 : Int)).natAbs :=
  ((listJobs_limit none none none none (some "-2") none threeJobStore).2 (-2)
    (by decide)).2.2 (by decide)

end QtechServer
